import Mathlib

/-!
Shallow embedding of the device-control core of the mobile-mcp repository
(`src/android.ts`, `src/server.ts`): the Android accessibility-tree extractor,
the gesture synthesizer, the log-filter engine, and the server tool dispatch
(`requireRobot`, `mobile_tap_element`).  JavaScript strings are modelled as
Lean `String`s over their character lists; JavaScript string truthiness
(`undefined`/`""` falsy) is modelled explicitly on `Option String`.
-/

namespace MobileMcp

/-! ### JavaScript string primitives -/

/-- JS truthiness of a `string | undefined` value: `undefined` and `""` are falsy. -/
def jsTruthy : Option String → Bool
  | none => false
  | some s => !(s == "")

/-- `a || b` on `string | undefined` values, yielding the default when falsy. -/
def jsOrString (o : Option String) (dflt : String) : String :=
  match o with
  | none => dflt
  | some s => if s == "" then dflt else s

/-- `pat` is a prefix of `l` (character-list form of `String.startsWith`). -/
def startsWithChars : List Char → List Char → Bool
  | _, [] => true
  | [], _ :: _ => false
  | c :: cs, p :: ps => c == p && startsWithChars cs ps

/-- JS `String.prototype.includes`: `pat` occurs as a contiguous substring of `l`. -/
def containsChars : List Char → List Char → Bool
  | [], pat => pat.isEmpty
  | c :: cs, pat => startsWithChars (c :: cs) pat || containsChars cs pat

def strStartsWith (s pat : String) : Bool := startsWithChars s.data pat.data

def strIncludes (s pat : String) : Bool := containsChars s.data pat.data

/-- ASCII model of JS `toLowerCase` (the repository only compares ASCII text). -/
def lowerCh (c : Char) : Char :=
  if 'A' ≤ c && c ≤ 'Z' then Char.ofNat (c.toNat + 32) else c

def strToLower (s : String) : String := ⟨s.data.map lowerCh⟩

/-- Case-insensitive substring test `s.toLowerCase().includes(pat.toLowerCase())`. -/
def lowerIncludes (s pat : String) : Bool := strIncludes (strToLower s) (strToLower pat)

/-- ASCII model of the JS `\s` class / `trim` whitespace set. -/
def isWsB (c : Char) : Bool :=
  c == ' ' || c == '\t' || c == '\n' || c == '\r' || c == '\x0b' || c == '\x0c'

def trimChars (l : List Char) : List Char :=
  ((l.dropWhile isWsB).reverse.dropWhile isWsB).reverse

/-- JS `String.prototype.trim` (ASCII whitespace model). -/
def trimStr (s : String) : String := ⟨trimChars s.data⟩

/-- JS `\d` character class. -/
def isDigitB (c : Char) : Bool := '0' ≤ c && c ≤ '9'

/-- JS `s.replace(pat, "")`: remove the first occurrence of `pat`, if any. -/
def removeFirst : List Char → List Char → List Char
  | [], _ => []
  | c :: cs, pat =>
    if startsWithChars (c :: cs) pat then (c :: cs).drop pat.length
    else c :: removeFirst cs pat

/-! ### Digit rendering and parsing

`parseInt(s, 10)` / `Number(s)` on an all-digit string is modelled as a base-10
fold; decimal rendering of a `Nat` is fuel-based so that it reduces by `decide`.
(JS numbers lose integer precision beyond 2^53; the repository only handles
screen coordinates and time windows, far below that bound.) -/

def digitCh : Nat → Char
  | 0 => '0' | 1 => '1' | 2 => '2' | 3 => '3' | 4 => '4'
  | 5 => '5' | 6 => '6' | 7 => '7' | 8 => '8' | _ => '9'

def digitsToNat (ds : List Char) : Nat :=
  ds.foldl (fun acc c => 10 * acc + (c.toNat - 48)) 0

def natToCharsAux (fuel : Nat) (n : Nat) : List Char :=
  match fuel with
  | 0 => []
  | f + 1 => if n < 10 then [digitCh n] else natToCharsAux f (n / 10) ++ [digitCh (n % 10)]

/-- Decimal rendering of a natural number as a character list. -/
def natToChars (n : Nat) : List Char := natToCharsAux (n + 1) n

theorem digitCh_toNat {d : Nat} (h : d < 10) : (digitCh d).toNat - 48 = d := by
  interval_cases d <;> decide

theorem isDigitB_digitCh {d : Nat} (h : d < 10) : isDigitB (digitCh d) = true := by
  interval_cases d <;> decide

theorem digitsToNat_append (xs : List Char) (c : Char) :
    digitsToNat (xs ++ [c]) = 10 * digitsToNat xs + (c.toNat - 48) := by
  simp [digitsToNat, List.foldl_append]

theorem natToCharsAux_spec :
    ∀ fuel n, n < fuel →
      digitsToNat (natToCharsAux fuel n) = n ∧
      natToCharsAux fuel n ≠ [] ∧
      ∀ c ∈ natToCharsAux fuel n, isDigitB c = true := by
  intro fuel
  induction fuel with
  | zero => intro n h; omega
  | succ f ih =>
    intro n h
    by_cases h10 : n < 10
    · refine ⟨?_, by simp [natToCharsAux, h10], ?_⟩
      · simp [natToCharsAux, h10, digitsToNat, digitCh_toNat h10]
      · intro c hc
        simp [natToCharsAux, h10] at hc
        subst hc
        exact isDigitB_digitCh h10
    · have hdiv : n / 10 < f := by omega
      obtain ⟨hv, hne, hd⟩ := ih (n / 10) hdiv
      have hmod : n % 10 < 10 := Nat.mod_lt _ (by omega)
      refine ⟨?_, by simp [natToCharsAux, h10], ?_⟩
      · rw [natToCharsAux]
        simp only [h10, if_false]
        rw [digitsToNat_append, hv, digitCh_toNat hmod]
        omega
      · intro c hc
        rw [natToCharsAux] at hc
        simp only [h10, if_false, List.mem_append, List.mem_singleton] at hc
        rcases hc with hc | hc
        · exact hd c hc
        · subst hc; exact isDigitB_digitCh hmod

theorem digitsToNat_natToChars (n : Nat) : digitsToNat (natToChars n) = n :=
  (natToCharsAux_spec (n + 1) n (Nat.lt_succ_self n)).1

theorem natToChars_ne_nil (n : Nat) : natToChars n ≠ [] :=
  (natToCharsAux_spec (n + 1) n (Nat.lt_succ_self n)).2.1

theorem natToChars_digits (n : Nat) : ∀ c ∈ natToChars n, isDigitB c = true :=
  (natToCharsAux_spec (n + 1) n (Nat.lt_succ_self n)).2.2

theorem takeWhile_append_all {p : Char → Bool} {l₁ : List Char} (l₂ : List Char)
    (h : ∀ c ∈ l₁, p c = true) : (l₁ ++ l₂).takeWhile p = l₁ ++ l₂.takeWhile p := by
  induction l₁ with
  | nil => simp
  | cons c cs ih =>
    have hc : p c = true := h c (by simp)
    simp only [List.cons_append, List.takeWhile_cons, hc, if_true]
    rw [ih fun x hx => h x (by simp [hx])]

theorem dropWhile_append_all {p : Char → Bool} {l₁ : List Char} (l₂ : List Char)
    (h : ∀ c ∈ l₁, p c = true) : (l₁ ++ l₂).dropWhile p = l₂.dropWhile p := by
  induction l₁ with
  | nil => simp
  | cons c cs ih =>
    have hc : p c = true := h c (by simp)
    simp only [List.cons_append, List.dropWhile_cons, hc, if_true]
    exact ih fun x hx => h x (by simp [hx])

/-! ### Geometry and element model

`ScreenElementRect` and `ScreenElement` are the value types of the control
interface.  Modelled from the spec: the repository's `robot.ts` (which declares
them) is not under `src/`, but every field below is fixed by its uses in
`src/android.ts` / `src/server.ts` and by the spec's data model (§3). -/

structure ScreenElementRect where
  x : Int
  y : Int
  width : Int
  height : Int
deriving DecidableEq

structure ScreenElement where
  type : String
  text : Option String := none
  label : String := ""
  name : Option String := none
  value : Option String := none
  identifier : Option String := none
  rect : ScreenElementRect
  focused : Bool := false
deriving DecidableEq

/-! ### Android accessibility-tree extractor (`src/android.ts`) -/

/-- Attributes of a UiAutomator XML node (`UiAutomatorXmlNode` minus children). -/
structure NodeAttrs where
  className : Option String := none
  text : Option String := none
  bounds : Option String := none
  hint : Option String := none
  focused : Option String := none
  clickable : Option String := none
  focusable : Option String := none
  contentDesc : Option String := none
  resourceId : Option String := none
deriving DecidableEq

mutual
inductive UiNode : Type where
  | mk (attrs : NodeAttrs) (children : UiNodeList)
inductive UiNodeList : Type where
  | nil
  | cons (head : UiNode) (tail : UiNodeList)
end

def UiNode.attrs : UiNode → NodeAttrs
  | .mk a _ => a

def UiNode.children : UiNode → UiNodeList
  | .mk _ c => c

/-- The anchored bounds regex of `getScreenElementRect`,
`^\[(\d+),(\d+)\]\[(\d+),(\d+)\]$`: each `\d+` is a maximal nonempty digit run
(the following literal is never a digit, so greedy matching needs no
backtracking), and the match must span the whole string. -/
def parseBoundsChars (l : List Char) : Option (Nat × Nat × Nat × Nat) :=
  match l with
  | '[' :: r1 =>
    let d1 := r1.takeWhile isDigitB
    let r2 := r1.dropWhile isDigitB
    if d1.isEmpty then none else
    match r2 with
    | ',' :: r3 =>
      let d2 := r3.takeWhile isDigitB
      let r4 := r3.dropWhile isDigitB
      if d2.isEmpty then none else
      match r4 with
      | ']' :: '[' :: r5 =>
        let d3 := r5.takeWhile isDigitB
        let r6 := r5.dropWhile isDigitB
        if d3.isEmpty then none else
        match r6 with
        | ',' :: r7 =>
          let d4 := r7.takeWhile isDigitB
          let r8 := r7.dropWhile isDigitB
          if d4.isEmpty then none else
          match r8 with
          | [']'] => some (digitsToNat d1, digitsToNat d2, digitsToNat d3, digitsToNat d4)
          | _ => none
        | _ => none
      | _ => none
    | _ => none
  | _ => none

/-- `String(node.bounds)`: a missing attribute stringifies to `"undefined"`. -/
def boundsStringOf (n : UiNode) : String :=
  match n.attrs.bounds with
  | some s => s
  | none => "undefined"

/-- `getScreenElementRect`; `none` models the all-`NaN` rect produced when the
regex fails (`NaN` fails every `> 0` comparison, so such rects never pass the
positivity filter). -/
def getScreenElementRect (n : UiNode) : Option ScreenElementRect :=
  match parseBoundsChars (boundsStringOf n).data with
  | some (l, t, r, b) => some ⟨(l : Int), (t : Int), (r : Int) - (l : Int), (b : Int) - (t : Int)⟩
  | none => none

/-- `hasTextOrLabel` in `collectElements`. -/
def hasTextOrLabelB (n : UiNode) : Bool :=
  jsTruthy n.attrs.text || jsTruthy n.attrs.contentDesc ||
    jsTruthy n.attrs.hint || jsTruthy n.attrs.resourceId

/-- `isInteractive` in `collectElements`. -/
def isInteractiveB (n : UiNode) : Bool :=
  n.attrs.clickable == some "true" || n.attrs.focusable == some "true" ||
    (match n.attrs.className with
     | some c => !(c == "") && (strIncludes c "Button" || strIncludes c "ImageView" ||
         strIncludes c "ImageButton" || strIncludes c "View")
     | none => false)

/-- The inclusion gate `hasTextOrLabel || isInteractive`. -/
def includeB (n : UiNode) : Bool := hasTextOrLabelB n || isInteractiveB n

/-- `element.rect.width > 0 && element.rect.height > 0` (false on the NaN rect). -/
def rectPosB (n : UiNode) : Bool :=
  match getScreenElementRect n with
  | some r => decide (0 < r.width) && decide (0 < r.height)
  | none => false

/-- The `ScreenElement` literal built in `collectElements` for an included node. -/
def mkElement (n : UiNode) (r : ScreenElementRect) : ScreenElement where
  type := jsOrString n.attrs.className "element"
  text := n.attrs.text
  label := jsOrString n.attrs.contentDesc (jsOrString n.attrs.hint "")
  name := none
  value := none
  identifier :=
    match n.attrs.resourceId with
    | some s => if s == "" then none else some s
    | none => none
  rect := r
  focused := n.attrs.focused == some "true"

/-- The element(s) a single node contributes on its own behalf: the inclusion
gate, then the positivity filter on the parsed rect. -/
def selfElements (n : UiNode) : List ScreenElement :=
  if includeB n then
    match getScreenElementRect n with
    | some r => if 0 < r.width ∧ 0 < r.height then [mkElement n r] else []
    | none => []
  else []

mutual
/-- `collectElements`: children are collected (in order) before the node itself. -/
def collectElements : UiNode → List ScreenElement
  | .mk a cs => collectChildren cs ++ selfElements (.mk a cs)
def collectChildren : UiNodeList → List ScreenElement
  | .nil => []
  | .cons c cs => collectElements c ++ collectChildren cs
end

mutual
/-- Post-order node enumeration of the tree (children before self). -/
def postOrder : UiNode → List UiNode
  | .mk a cs => postOrderList cs ++ [.mk a cs]
def postOrderList : UiNodeList → List UiNode
  | .nil => []
  | .cons c cs => postOrder c ++ postOrderList cs
end

/-- The element a node maps to (the rect default is never used on nodes that
pass `rectPosB`). -/
def elementOf (n : UiNode) : ScreenElement :=
  mkElement n ((getScreenElementRect n).getD ⟨0, 0, 0, 0⟩)

/-- Optional self-contribution of a node, phrased as a filter condition. -/
def selfElement (n : UiNode) : Option ScreenElement :=
  if includeB n && rectPosB n then some (elementOf n) else none

theorem selfElements_eq_toList (n : UiNode) : selfElements n = (selfElement n).toList := by
  unfold selfElements selfElement rectPosB
  cases hinc : includeB n <;> cases hr : getScreenElementRect n <;>
    simp [hr] <;> split <;> simp_all [elementOf, hr]

theorem natToChars_isEmpty (n : Nat) : (natToChars n).isEmpty = false := by
  cases h : natToChars n with
  | nil => exact absurd h (natToChars_ne_nil n)
  | cons c cs => rfl

theorem digits_split (n : Nat) (c : Char) (hc : isDigitB c = false) (rest : List Char) :
    (natToChars n ++ c :: rest).takeWhile isDigitB = natToChars n ∧
    (natToChars n ++ c :: rest).dropWhile isDigitB = c :: rest := by
  constructor
  · rw [takeWhile_append_all _ (natToChars_digits n)]
    simp [List.takeWhile_cons, hc]
  · rw [dropWhile_append_all _ (natToChars_digits n)]
    simp [List.dropWhile_cons, hc]

/-- The decimal bounds string `"[a,b][c,d]"`. -/
def boundsStr (a b c d : Nat) : String :=
  ⟨'[' :: (natToChars a ++ ',' ::
    (natToChars b ++ ']' :: '[' ::
      (natToChars c ++ ',' :: (natToChars d ++ [']']))))⟩

theorem parseBoundsChars_boundsStr (a b c d : Nat) :
    parseBoundsChars (boundsStr a b c d).data = some (a, b, c, d) := by
  have hcomma : isDigitB ',' = false := by decide
  have hrb : isDigitB ']' = false := by decide
  obtain ⟨t4, d4⟩ := digits_split d ']' hrb []
  obtain ⟨t3, d3⟩ := digits_split c ',' hcomma (natToChars d ++ [']'])
  obtain ⟨t2, d2⟩ :=
    digits_split b ']' hrb ('[' :: (natToChars c ++ ',' :: (natToChars d ++ [']'])))
  obtain ⟨t1, d1⟩ := digits_split a ',' hcomma
    (natToChars b ++ ']' :: '[' :: (natToChars c ++ ',' :: (natToChars d ++ [']'])))
  simp only [boundsStr, parseBoundsChars, t1, d1, t2, d2, t3, d3, t4, d4,
    natToChars_isEmpty, Bool.false_eq_true, if_false, digitsToNat_natToChars]

mutual
theorem collectElements_eq_filterMap (n : UiNode) :
    collectElements n = (postOrder n).filterMap selfElement := by
  match n with
  | .mk a cs =>
    rw [collectElements, postOrder, List.filterMap_append,
      collectChildren_eq_filterMap cs, selfElements_eq_toList]
    cases h : selfElement (UiNode.mk a cs) <;> simp [List.filterMap_cons, h]
theorem collectChildren_eq_filterMap (l : UiNodeList) :
    collectChildren l = (postOrderList l).filterMap selfElement := by
  match l with
  | .nil => rfl
  | .cons c cs =>
    rw [collectChildren, postOrderList, List.filterMap_append,
      collectElements_eq_filterMap c, collectChildren_eq_filterMap cs]
end

/-! ### Gesture synthesizer (`src/android.ts`, `swipe` / `swipeFromCoordinate`) -/

/-- Result of a control-interface call: success or an `ActionableError`. -/
inductive CallResult (α : Type) where
  | ok (value : α)
  | actionableError (message : String)
deriving DecidableEq

/-- `AndroidRobot.swipe(direction)`, returning the `(x0, y0, x1, y1)` arguments
of the native `input swipe` call.  `Math.floor(h * 0.80)` is modelled as
`h * 4 / 5` (and `0.20`, `0.50`, `0.30` likewise): the double-precision product
never crosses an integer boundary for dimensions below 2^49, so the rational
floor is exact for every physical screen size.  `width >> 1` is `w / 2`. -/
def swipe (w h : Nat) (direction : String) : CallResult (Nat × Nat × Nat × Nat) :=
  let centerX := w / 2
  match direction with
  | "up" => .ok (centerX, h * 4 / 5, centerX, h / 5)
  | "down" => .ok (centerX, h / 5, centerX, h * 4 / 5)
  | "left" => .ok (w * 4 / 5, h / 2, w / 5, h / 2)
  | "right" => .ok (w / 5, h / 2, w * 4 / 5, h / 2)
  | _ => .actionableError ("Swipe direction \"" ++ direction ++ "\" is not supported")

/-- `distance || default`: JS `||` treats `0` (and only `0`, for integers) as falsy. -/
def jsOrInt (o : Option Int) (dflt : Int) : Int :=
  match o with
  | none => dflt
  | some v => if v = 0 then dflt else v

/-- `AndroidRobot.swipeFromCoordinate(x, y, direction, distance?)`, returning
`(x0, y0, x1, y1)`. -/
def swipeFromCoordinate (w h : Nat) (x y : Int) (direction : String)
    (distance : Option Int) : CallResult (Int × Int × Int × Int) :=
  let defaultDistanceY : Int := 3 * h / 10
  let defaultDistanceX : Int := 3 * w / 10
  let swipeDistanceY := jsOrInt distance defaultDistanceY
  let swipeDistanceX := jsOrInt distance defaultDistanceX
  match direction with
  | "up" => .ok (x, y, x, max 0 (y - swipeDistanceY))
  | "down" => .ok (x, y, x, min (h : Int) (y + swipeDistanceY))
  | "left" => .ok (x, y, max 0 (x - swipeDistanceX), y)
  | "right" => .ok (x, y, min (w : Int) (x + swipeDistanceX), y)
  | _ => .actionableError ("Swipe direction \"" ++ direction ++ "\" is not supported")

/-! ### Log filter engine (`src/android.ts`, `getDeviceLogs` / `parseTimeWindow`) -/

/-- The anchored regex `^(\d+)([smh])$`: a maximal nonempty digit run followed
by exactly one unit character (a shorter `\d+` match would put a digit where
`[smh]` is required, so greedy matching needs no backtracking). -/
def timeWindowMatch (s : String) : Option (Nat × Char) :=
  let ds := s.data.takeWhile isDigitB
  match s.data.dropWhile isDigitB with
  | [u] =>
    if !ds.isEmpty && (u == 's' || u == 'm' || u == 'h') then some (digitsToNat ds, u)
    else none
  | _ => none

/-- `AndroidRobot.parseTimeWindow`: seconds for `<integer><s|m|h>`, else 60. -/
def parseTimeWindow (s : String) : Nat :=
  match timeWindowMatch s with
  | none => 60
  | some (v, u) =>
    match u with
    | 's' => v
    | 'm' => v * 60
    | 'h' => v * 3600
    | _ => 60

inductive LogcatMode where
  | since (seconds : Nat)
  | dump
deriving DecidableEq

/-- Mode selection in `getDeviceLogs`: `timeWindow = options?.timeWindow || "1m"`,
then `-T <resolved start timestamp>` when `timeWindow` is truthy and `-d`
(dump existing buffer) otherwise.  `since n` abstracts the `-T` argument, whose
timestamp is `Date.now()` minus `n` seconds. -/
def logcatModeOf (timeWindowOpt : Option String) : LogcatMode :=
  let timeWindow := jsOrString timeWindowOpt "1m"
  if timeWindow == "" then .dump else .since (parseTimeWindow timeWindow)

/-- `effectiveFilter` computation at the top of `getDeviceLogs`: a truthy
`process` is folded into the filter string before parsing. -/
def effectiveFilterOf (filter processFilter : Option String) : Option String :=
  if jsTruthy processFilter && jsTruthy filter
      && !strIncludes (jsOrString filter "") "package:" then
    some ("package:" ++ jsOrString processFilter "" ++ " " ++ jsOrString filter "")
  else if jsTruthy processFilter && !jsTruthy filter then
    some ("package:" ++ jsOrString processFilter "")
  else filter

/-- `.` of the package regex (JS `.` excludes line terminators). -/
def notLineTermB (c : Char) : Bool := !(c == '\n' || c == '\r')

/-- `(?:\s+(.+))?`: `\s+` matches greedily and backtracks from the end until
the nonempty `(.+)` can start with a non-line-terminator. -/
def optTextGroupAux : Nat → List Char → Option (List Char)
  | 0, _ => none
  | k + 1, r =>
    let g := (r.drop (k + 1)).takeWhile notLineTermB
    if !g.isEmpty then some g else optTextGroupAux k r

def optTextGroup (r : List Char) : Option (List Char) :=
  optTextGroupAux (r.takeWhile isWsB).length r

/-- `/package:([^\s]+)(?:\s+(.+))?/`: the engine scans left to right and
advances one character after every failed attempt, so a position where the
literal matches but `[^\s]+` is empty is skipped, not fatal. -/
def pkgRegexAux : List Char → Option (List Char × Option (List Char))
  | [] => none
  | c :: cs =>
    if startsWithChars (c :: cs) "package:".data then
      let rest := (c :: cs).drop 8
      let g1 := rest.takeWhile (fun ch => !isWsB ch)
      if g1.isEmpty then pkgRegexAux cs
      else some (g1, optTextGroup (rest.dropWhile (fun ch => !isWsB ch)))
    else pkgRegexAux cs

def pkgRegexMatch (s : String) : Option (String × Option String) :=
  match pkgRegexAux s.data with
  | some (g1, g2) => some (⟨g1⟩, g2.map (fun l => ⟨l⟩))
  | none => none

/-- The filter-string parse of `getDeviceLogs` (mine / specific package / bare
text), yielding `(packageFilter, searchQuery)`. -/
def parseEffectiveFilter (eff : Option String) : Option String × Option String :=
  if jsTruthy eff then
    let e := jsOrString eff ""
    if strStartsWith e "package:mine" then
      let query := trimStr ⟨removeFirst e.data "package:mine".data⟩
      (none, if query == "" then none else some query)
    else if strIncludes e "package:" then
      match pkgRegexMatch e with
      | some (g1, g2) => (some g1, g2)
      | none => (none, none)
    else (none, some e)
  else (none, none)

/-- The user-app heuristic of the `package:mine` post-filter. -/
def userAppLineB (l : String) : Bool :=
  !strIncludes l "com.android." && !strIncludes l "android." && !strIncludes l "system_" &&
    (strIncludes l "com." || strIncludes l "io." || strIncludes l "net." || strIncludes l "app.")

/-- The `package:mine` post-filter is gated on the ORIGINAL `filter` option
(`if (filter && filter.startsWith("package:mine"))`), not on `effectiveFilter`. -/
def mineCheckOf (filter : Option String) : Bool :=
  jsTruthy filter && strStartsWith (jsOrString filter "") "package:mine"

/-- The post-processing pipeline of `getDeviceLogs` over the line-split native
output: drop blank lines, apply the specific-package substring filter, the
`package:mine` user-app filter, then the case-insensitive text search. -/
def postProcessLogs (packageFilter searchQuery : Option String) (mineCheck : Bool)
    (rawLines : List String) : String :=
  let lines := rawLines.filter (fun l => !(trimStr l == ""))
  let l1 :=
    match packageFilter with
    | some p => if p == "" || p == "mine" then lines else lines.filter (fun l => strIncludes l p)
    | none => lines
  let l2 := if mineCheck then l1.filter userAppLineB else l1
  let l3 :=
    match searchQuery with
    | some q => if q == "" then l2 else l2.filter (fun l => lowerIncludes l q)
    | none => l2
  String.intercalate "\n" l3

/-- Pure model of `AndroidRobot.getDeviceLogs`'s filter pipeline.  `rawLines`
is the line-split stdout of the native `logcat` invocation; the native
arguments (`-T` timestamp, `--pid` list) are functions of `timeWindow` and
`packageFilter` alone, so calls agreeing on those observe the same raw lines. -/
def getDeviceLogs (filter process : Option String) (rawLines : List String) : String :=
  let eff := effectiveFilterOf filter process
  let parsed := parseEffectiveFilter eff
  postProcessLogs parsed.1 parsed.2 (mineCheckOf filter) rawLines

/-! ### Element matcher (`src/server.ts`, `mobile_tap_element`) -/

/-- Outcome of `mobile_tap_element`: the zero-match `ActionableError` (with the
available elements' display strings), the multi-match `ActionableError` (with
the matches and their bounding-box centers), or a tap at the single match's
center.  Centers are rationals because `rect.width / 2` is JS float division. -/
inductive TapResult where
  | noMatch (available : List String)
  | multiMatch (found : List ScreenElement) (centers : List (ℚ × ℚ))
  | tapped (x y : ℚ)
deriving DecidableEq

/-- `rect.x + rect.width / 2`, `rect.y + rect.height / 2`. -/
def centerOf (e : ScreenElement) : ℚ × ℚ :=
  ((e.rect.x : ℚ) + (e.rect.width : ℚ) / 2, (e.rect.y : ℚ) + (e.rect.height : ℚ) / 2)

/-- `searchFields`: the defined fields that are nonempty after trimming
(`field && field.trim() !== ""`). -/
def searchFields (e : ScreenElement) : List String :=
  ([e.text, some e.label, e.name, e.value, e.identifier].filterMap id).filter
    (fun f => !(f == "") && !(trimStr f == ""))

/-- An element matches when some search field contains the query
case-insensitively. -/
def matchesQueryB (query : String) (e : ScreenElement) : Bool :=
  (searchFields e).any (fun f => lowerIncludes f query)

/-- JS `a || b || ...` over optional strings: first truthy value. -/
def firstTruthy : List (Option String) → Option String
  | [] => none
  | o :: rest => if jsTruthy o then o else firstTruthy rest

/-- `e.text || e.label || e.name || e.value || e.identifier`. -/
def displayOf (e : ScreenElement) : Option String :=
  firstTruthy [e.text, some e.label, e.name, e.value, e.identifier]

/-- `elements.map(...).filter(t => t)` in the zero-match error message. -/
def availableDisplays (elements : List ScreenElement) : List String :=
  ((elements.map displayOf).filterMap id).filter (fun t => !(t == ""))

/-- The `mobile_tap_element` tool body after `getElementsOnScreen`. -/
def mobileTapElement (elements : List ScreenElement) (query : String) : TapResult :=
  let matching := elements.filter (matchesQueryB query)
  match matching with
  | [] => .noMatch (availableDisplays elements)
  | [e] => .tapped ((e.rect.x : ℚ) + (e.rect.width : ℚ) / 2)
      ((e.rect.y : ℚ) + (e.rect.height : ℚ) / 2)
  | e1 :: e2 :: es => .multiMatch (e1 :: e2 :: es) ((e1 :: e2 :: es).map centerOf)

/-! ### Server tool dispatch (`src/server.ts`)

Every control-interface tool calls `requireRobot()` before touching the
selected robot; `robot` is `null` until `mobile_use_device` runs.  The robot
itself is the polymorphic control interface.  Modelled from the spec: the
`Robot` interface lives in `robot.ts`, which is not under `src/`; the
operation set below is the one `server.ts` invokes, and each operation is an
abstract response paired with the native commands it would run. -/

structure Robot where
  listApps : List (String × String) × List String
  listAppsBooted : Option (List (String × String) × List String)
  launchApp : String → List String
  launchAppBooted : Option (String → List String)
  terminateApp : String → List String
  terminateAppBooted : Option (String → List String)
  getScreenSize : (Nat × Nat) × List String
  tap : Int → Int → List String
  getElementsOnScreen : List ScreenElement × List String
  pressButton : String → CallResult Unit × List String
  openUrl : String → List String
  swipe : String → CallResult Unit × List String
  swipeFromCoordinate : Int → Int → String → Option Int → CallResult Unit × List String
  sendKeys : String → List String
  getScreenshot : List Nat × List String
  getScreenshotBooted : Option (List Nat × List String)
  setOrientation : String → List String
  getOrientation : String × List String
  getDeviceLogs : Option String → Option String → Option String → String × List String

/-- A control-interface tool invocation with its (schema-validated) arguments. -/
inductive ToolCall where
  | listApps (iosUseBooted : Bool)
  | launchApp (packageName : String) (iosUseBooted : Bool)
  | terminateApp (packageName : String) (iosUseBooted : Bool)
  | getScreenSize
  | clickOnScreenAtCoordinates (x y : Int)
  | listElementsOnScreen
  | pressButton (button : String)
  | openUrl (url : String)
  | swipeOnScreen (direction : String) (x y : Option Int) (distance : Option Int)
  | typeKeys (text : String) (submit : Bool)
  | takeScreenshot (iosUseBooted save : Bool)
  | setOrientation (orientation : String)
  | getOrientation
  | getLog (timeWindow filter process : Option String)

/-- A tool's successful payload.  Structured payloads (element lists,
screenshot bytes) stand for the front end's textual/image serialization,
which the spec treats as an external concern. -/
inductive ToolResult where
  | message (text : String)
  | elementList (elements : List ScreenElement)
  | screenshot (bytes : List Nat)
  | logs (text : String)
deriving DecidableEq

/-- The `requireRobot()` ActionableError message. -/
def noDeviceMsg : String :=
  "No device selected. Use the mobile_use_device tool to select a device."

/-- ` ${distance} pixels` when `distance` is truthy. -/
def distanceText (distance : Option Int) : String :=
  match distance with
  | some d => if d = 0 then "" else " " ++ toString d ++ " pixels"
  | none => ""

/-- Dispatch of one control-interface tool call against the optional selected
robot: each handler runs `requireRobot()` first and only then touches the
robot.  The result is paired with the list of native commands invoked. -/
def runTool (robot : Option Robot) : ToolCall → CallResult ToolResult × List String
  | .listApps iosUseBooted =>
    match robot with
    | none => (.actionableError noDeviceMsg, [])
    | some r =>
      let (apps, cmds) := if iosUseBooted then r.listAppsBooted.getD r.listApps else r.listApps
      (.ok (.message ("Found these apps on device: " ++
        String.intercalate ", " (apps.map fun a => a.2 ++ " (" ++ a.1 ++ ")"))), cmds)
  | .launchApp packageName iosUseBooted =>
    match robot with
    | none => (.actionableError noDeviceMsg, [])
    | some r =>
      let cmds :=
        match iosUseBooted, r.launchAppBooted with
        | true, some f => f packageName
        | _, _ => r.launchApp packageName
      (.ok (.message ("Launched app " ++ packageName)), cmds)
  | .terminateApp packageName iosUseBooted =>
    match robot with
    | none => (.actionableError noDeviceMsg, [])
    | some r =>
      let cmds :=
        match iosUseBooted, r.terminateAppBooted with
        | true, some f => f packageName
        | _, _ => r.terminateApp packageName
      (.ok (.message ("Terminated app " ++ packageName)), cmds)
  | .getScreenSize =>
    match robot with
    | none => (.actionableError noDeviceMsg, [])
    | some r =>
      let ((w, h), cmds) := r.getScreenSize
      (.ok (.message ("Screen size is " ++ toString w ++ "x" ++ toString h ++ " pixels")), cmds)
  | .clickOnScreenAtCoordinates x y =>
    match robot with
    | none => (.actionableError noDeviceMsg, [])
    | some r =>
      (.ok (.message ("Clicked on screen at coordinates: " ++ toString x ++ ", " ++ toString y)),
        r.tap x y)
  | .listElementsOnScreen =>
    match robot with
    | none => (.actionableError noDeviceMsg, [])
    | some r =>
      let (elements, cmds) := r.getElementsOnScreen
      (.ok (.elementList elements), cmds)
  | .pressButton button =>
    match robot with
    | none => (.actionableError noDeviceMsg, [])
    | some r =>
      match r.pressButton button with
      | (.ok _, cmds) => (.ok (.message ("Pressed the button: " ++ button)), cmds)
      | (.actionableError m, cmds) => (.actionableError m, cmds)
  | .openUrl url =>
    match robot with
    | none => (.actionableError noDeviceMsg, [])
    | some r => (.ok (.message ("Opened URL: " ++ url)), r.openUrl url)
  | .swipeOnScreen direction x y distance =>
    match robot with
    | none => (.actionableError noDeviceMsg, [])
    | some r =>
      match x, y with
      | some xv, some yv =>
        match r.swipeFromCoordinate xv yv direction distance with
        | (.ok _, cmds) =>
          (.ok (.message ("Swiped " ++ direction ++ distanceText distance ++
            " from coordinates: " ++ toString xv ++ ", " ++ toString yv)), cmds)
        | (.actionableError m, cmds) => (.actionableError m, cmds)
      | _, _ =>
        match r.swipe direction with
        | (.ok _, cmds) => (.ok (.message ("Swiped " ++ direction ++ " on screen")), cmds)
        | (.actionableError m, cmds) => (.actionableError m, cmds)
  | .typeKeys text submit =>
    match robot with
    | none => (.actionableError noDeviceMsg, [])
    | some r =>
      let cmds1 := r.sendKeys text
      if submit then
        match r.pressButton "ENTER" with
        | (.ok _, cmds2) => (.ok (.message ("Typed text: " ++ text)), cmds1 ++ cmds2)
        | (.actionableError m, cmds2) => (.actionableError m, cmds1 ++ cmds2)
      else (.ok (.message ("Typed text: " ++ text)), cmds1)
  | .takeScreenshot iosUseBooted _save =>
    match robot with
    | none => (.actionableError noDeviceMsg, [])
    | some r =>
      let (_, cmds0) := r.getScreenSize
      let (bytes, cmds1) :=
        if iosUseBooted then r.getScreenshotBooted.getD r.getScreenshot else r.getScreenshot
      (.ok (.screenshot bytes), cmds0 ++ cmds1)
  | .setOrientation orientation =>
    match robot with
    | none => (.actionableError noDeviceMsg, [])
    | some r =>
      (.ok (.message ("Changed device orientation to " ++ orientation)),
        r.setOrientation orientation)
  | .getOrientation =>
    match robot with
    | none => (.actionableError noDeviceMsg, [])
    | some r =>
      let (o, cmds) := r.getOrientation
      (.ok (.message ("Current device orientation is " ++ o)), cmds)
  | .getLog timeWindow filter process =>
    match robot with
    | none => (.actionableError noDeviceMsg, [])
    | some r =>
      let (logs, cmds) := r.getDeviceLogs timeWindow filter process
      (.ok (.logs logs), cmds)

/-! ### Concrete nodes and elements used as test inputs -/

/-- A leaf carrying only `clickable="true"` (in particular, no bounds). -/
def clickOnlyLeaf : UiNode := .mk { clickable := some "true" } .nil

/-- A leaf carrying `clickable="true"` together with valid positive bounds. -/
def clickableLeafWithBounds : UiNode :=
  .mk { clickable := some "true", bounds := some "[0,0][10,10]" } .nil

/-- A leaf with bounds `"[1,2][3,4]"` and nothing else. -/
def bounds1234Node : UiNode := .mk { bounds := some "[1,2][3,4]" } .nil

/-- A leaf with text but no bounds attribute (its rect parse fails). -/
def textNoBoundsNode : UiNode := .mk { text := some "x" } .nil

/-! ### Claim theorems -/

/-- C2: Invoking any control-interface operation (list apps, launch/terminate
app, get screen size, tap, list elements, press button, open URL, swipe, type
keys, screenshot, set/get orientation, get logs) before a device has been
selected fails with the "no device selected" ActionableError, and no native
device command is invoked by that call. -/
theorem c2_no_device_selected (c : ToolCall) :
    runTool none c = (.actionableError noDeviceMsg, []) := by
  cases c <;> rfl

/-- C10: `swipeFromCoordinate` with an explicit distance of 0 computes the same
start and end coordinates as with the distance omitted: `distance || default`
replaces the falsy 0 by the 30%-of-screen-dimension default, so a zero-length
swipe cannot be requested through this operation. -/
theorem c10_zero_distance_is_default (w h : Nat) (x y : Int) (direction : String) :
    swipeFromCoordinate w h x y direction (some 0) =
      swipeFromCoordinate w h x y direction none := rfl

/-- C5: `swipe(direction)` starts and ends on the screen midline and travels
from 80% to 20% of the relevant dimension for "up" (mirrored for "down",
symmetric along the width for "left"/"right"); on a 1000x2000 screen,
swipe("up") yields x0 = x1 = 500, y0 = 1600, y1 = 400; an unsupported
direction value fails with an ActionableError. -/
theorem c5_swipe_directional (w h : Nat) (d : String)
    (hd : d ≠ "up" ∧ d ≠ "down" ∧ d ≠ "left" ∧ d ≠ "right") :
    swipe w h "up" = .ok (w / 2, h * 4 / 5, w / 2, h / 5) ∧
    swipe w h "down" = .ok (w / 2, h / 5, w / 2, h * 4 / 5) ∧
    swipe w h "left" = .ok (w * 4 / 5, h / 2, w / 5, h / 2) ∧
    swipe w h "right" = .ok (w / 5, h / 2, w * 4 / 5, h / 2) ∧
    swipe 1000 2000 "up" = .ok (500, 1600, 500, 400) ∧
    swipe w h d = .actionableError ("Swipe direction \"" ++ d ++ "\" is not supported") := by
  obtain ⟨h1, h2, h3, h4⟩ := hd
  refine ⟨rfl, rfl, rfl, rfl, rfl, ?_⟩
  unfold swipe
  split <;> simp_all

theorem c5_swipe_directional_witness :
    swipe 1000 2000 "up" = .ok (500, 1600, 500, 400) ∧
    swipe 1000 2000 "diagonal" =
      .actionableError ("Swipe direction \"" ++ "diagonal" ++ "\" is not supported") :=
  ⟨(c5_swipe_directional 1000 2000 "diagonal" (by decide)).2.2.2.2.1,
    (c5_swipe_directional 1000 2000 "diagonal" (by decide)).2.2.2.2.2⟩

/-- C3 counterexample: a tree consisting of one leaf that carries only
`clickable="true"` satisfies the claimed inclusion predicate, yet the flat
output is empty — the leaf has no bounds, so its rect parse fails and the
positivity filter drops it.  This falsifies both the claimed "if and only if"
and the claimed appearance of such a leaf in the flat output. -/
theorem c3_counterexample :
    includeB clickOnlyLeaf = true ∧ collectElements clickOnlyLeaf = [] := by
  decide

theorem filterMap_guard {α β : Type} (p : α → Bool) (f : α → β) (l : List α) :
    l.filterMap (fun a => if p a then some (f a) else none) = (l.filter p).map f := by
  induction l with
  | nil => rfl
  | cons a t ih => by_cases h : p a <;> simp [List.filterMap_cons, List.filter_cons, h, ih]

/-- C3 (amended): the Android extractor's flat output lists, in post-order
(children before parent), exactly the nodes that satisfy the inclusion rule
(non-empty text / content-desc / hint / resource-id, or clickable="true",
focusable="true", or class name containing Button / ImageView / ImageButton /
View) AND whose bounds parse to a rect of positive width and height; a leaf
carrying clickable="true" together with valid positive bounds appears in the
flat output with no text and an empty label. -/
theorem c3_inclusion_rule (n : UiNode) :
    collectElements n =
      ((postOrder n).filter (fun m => includeB m && rectPosB m)).map elementOf ∧
    collectElements clickableLeafWithBounds =
      [{ type := "element", text := none, label := "", rect := ⟨0, 0, 10, 10⟩ }] := by
  constructor
  · exact (collectElements_eq_filterMap n).trans
      (filterMap_guard (fun m => includeB m && rectPosB m) elementOf (postOrder n))
  · decide

/-- C4: parsing a bounds string "[a,b][c,d]" with c > a and d > b yields a rect
with x = a, y = b, width = c - a, height = d - b; and a node whose bounds are
invalid or whose parsed width or height is non-positive contributes nothing to
the output element list even when it satisfies the inclusion rule. -/
theorem c4_bounds_parsing (a b c d : Nat) (h1 : a < c) (h2 : b < d)
    (n : UiNode) (hb : n.attrs.bounds = some (boundsStr a b c d))
    (m : UiNode) (hm : rectPosB m = false) (hinc : includeB m = true) :
    getScreenElementRect n =
      some ⟨(a : Int), (b : Int), (c : Int) - (a : Int), (d : Int) - (b : Int)⟩ ∧
    collectElements m = collectChildren m.children := by
  constructor
  · unfold getScreenElementRect boundsStringOf
    rw [hb]
    simp [parseBoundsChars_boundsStr]
  · cases m with
    | mk am cm =>
      rw [collectElements, selfElements_eq_toList]
      have hse : selfElement (UiNode.mk am cm) = none := by
        simp [selfElement, hm]
      rw [hse]
      simp [UiNode.children]

theorem c4_bounds_parsing_witness :
    getScreenElementRect bounds1234Node = some ⟨1, 2, 2, 2⟩ ∧
    collectElements textNoBoundsNode = collectChildren textNoBoundsNode.children := by
  have h := c4_bounds_parsing 1 2 3 4 (by decide) (by decide) bounds1234Node (by decide)
    textNoBoundsNode (by decide) (by decide)
  exact ⟨h.1.trans (by decide), h.2⟩

/-- C9 counterexample: with the `timeWindow` option omitted, `getDeviceLogs`
defaults it to "1m" and still resolves a start timestamp 60 seconds back for
the `-T` mode; the dump-existing-buffer (`-d`) mode claimed by the spec for the
omitted case is not selected. -/
theorem c9_counterexample :
    logcatModeOf none = .since 60 ∧ logcatModeOf none ≠ .dump := by
  decide

/-- Last-character characterization of the `<integer><s|m|h>` format. -/
def timeWindowFormatB (s : String) : Bool :=
  match s.data.getLast? with
  | none => false
  | some u => (u == 's' || u == 'm' || u == 'h') && !s.data.dropLast.isEmpty &&
      s.data.dropLast.all isDigitB

theorem timeWindowMatch_render (n : Nat) (u : Char) (hu : isDigitB u = false)
    (hsmh : (u == 's' || u == 'm' || u == 'h') = true) :
    timeWindowMatch ⟨natToChars n ++ [u]⟩ = some (digitsToNat (natToChars n), u) := by
  obtain ⟨t, d⟩ := digits_split n u hu []
  simp only [timeWindowMatch, t, d, natToChars_isEmpty, hsmh, Bool.not_false, Bool.and_self,
    if_true]

theorem timeWindowMatch_format (s : String) (v : Nat) (u : Char)
    (h : timeWindowMatch s = some (v, u)) : timeWindowFormatB s = true := by
  obtain ⟨ds, hds⟩ : ∃ ds, s.data.takeWhile isDigitB = ds := ⟨_, rfl⟩
  simp only [timeWindowMatch, hds] at h
  split at h
  · rename_i u' heq
    by_cases hcond : (!ds.isEmpty && (u' == 's' || u' == 'm' || u' == 'h')) = true
    · have hsplit : s.data = ds ++ [u'] := by
        conv_lhs => rw [← List.takeWhile_append_dropWhile (p := isDigitB) (l := s.data)]
        rw [hds, heq]
      have hall : ds.all isDigitB = true := by
        rw [List.all_eq_true]
        intro x hx
        exact List.mem_takeWhile_imp (hds ▸ hx)
      rw [Bool.and_eq_true] at hcond
      unfold timeWindowFormatB
      rw [hsplit, List.getLast?_concat, List.dropLast_concat]
      simp [hcond.1, hcond.2, hall]
    · rw [if_neg hcond] at h
      exact absurd h (by simp)
  · exact absurd h (by simp)

theorem parseTimeWindow_of_format_false (s : String) (hs : timeWindowFormatB s = false) :
    parseTimeWindow s = 60 := by
  cases h : timeWindowMatch s with
  | none => simp [parseTimeWindow, h]
  | some vu =>
    exact absurd (timeWindowMatch_format s vu.1 vu.2 (by rw [h])) (by simp [hs])

/-- C9 (amended): time-window strings `<integer><s|m|h>` convert to seconds
(s = x1, m = x60, h = x3600) and any non-matching string converts to 60
seconds, the result being resolved into an absolute start timestamp for the
native log reader's `-T` mode; when the timeWindow option is omitted it
defaults to "1m", so the start-timestamp mode is still used — the
dump-existing-buffer mode is never selected. -/
theorem c9_time_window (n : Nat) (s : String) (hs : timeWindowFormatB s = false) :
    parseTimeWindow ⟨natToChars n ++ ['s']⟩ = n ∧
    parseTimeWindow ⟨natToChars n ++ ['m']⟩ = n * 60 ∧
    parseTimeWindow ⟨natToChars n ++ ['h']⟩ = n * 3600 ∧
    parseTimeWindow s = 60 ∧
    logcatModeOf none = .since 60 ∧
    (∀ o : Option String, logcatModeOf o ≠ .dump) := by
  refine ⟨?_, ?_, ?_, parseTimeWindow_of_format_false s hs, rfl, ?_⟩
  · simp [parseTimeWindow, timeWindowMatch_render n 's' (by decide) (by decide),
      digitsToNat_natToChars]
  · simp [parseTimeWindow, timeWindowMatch_render n 'm' (by decide) (by decide),
      digitsToNat_natToChars]
  · simp [parseTimeWindow, timeWindowMatch_render n 'h' (by decide) (by decide),
      digitsToNat_natToChars]
  · intro o
    cases o with
    | none => decide
    | some tw =>
      simp only [logcatModeOf, jsOrString]
      by_cases htw : tw == ""
      · simp [htw]
      · simp [htw]

theorem c9_time_window_witness :
    parseTimeWindow ⟨natToChars 5 ++ ['s']⟩ = 5 ∧
    parseTimeWindow ⟨natToChars 5 ++ ['m']⟩ = 5 * 60 ∧
    parseTimeWindow ⟨natToChars 5 ++ ['h']⟩ = 5 * 3600 ∧
    parseTimeWindow "abc" = 60 ∧
    logcatModeOf none = .since 60 ∧
    (∀ o : Option String, logcatModeOf o ≠ .dump) :=
  c9_time_window 5 "abc" (by decide)

/-! ### C1: the element matcher -/

/-- The five display/search fields of an element, defined ones only. -/
def claimFieldList (e : ScreenElement) : List String :=
  [e.text, some e.label, e.name, e.value, e.identifier].filterMap id

/-- The claim's matcher, read literally: some NON-EMPTY field contains the
query case-insensitively (no whitespace trimming). -/
def specMatchesB (query : String) (e : ScreenElement) : Bool :=
  (claimFieldList e).any (fun f => !(f == "") && lowerIncludes f query)

/-- The amended matcher: some field that is non-empty AFTER TRIMMING contains
the query case-insensitively. -/
def claimMatchesB (query : String) (e : ScreenElement) : Bool :=
  (claimFieldList e).any (fun f => !(trimStr f == "") && lowerIncludes f query)

theorem any_filter_eq {α : Type} (p g : α → Bool) (l : List α) :
    (l.filter p).any g = l.any (fun x => p x && g x) := by
  induction l with
  | nil => rfl
  | cons a t ih => by_cases h : p a <;> simp [List.filter_cons, h, ih]

theorem matchesQueryB_eq_claim (q : String) (e : ScreenElement) :
    matchesQueryB q e = claimMatchesB q e := by
  unfold matchesQueryB claimMatchesB searchFields claimFieldList
  rw [any_filter_eq]
  congr 1
  funext f
  by_cases hf : f = ""
  · subst hf
    have h0 : (trimStr "" == "") = true := by decide
    simp [h0]
  · have hf' : (f == "") = false := by simp [hf]
    simp [hf']

/-- A node whose only populated attribute besides bounds is the
whitespace-only text " ". -/
def spaceTextNode : UiNode :=
  .mk { text := some " ", bounds := some "[0,0][10,10]" } .nil

/-- The element the extractor produces from `spaceTextNode`. -/
def spaceTextElement : ScreenElement :=
  { type := "element", text := some " ", label := "", rect := ⟨0, 0, 10, 10⟩ }

/-- C1 counterexample: for the element list `[spaceTextElement]` — which
`getElementsOnScreen` produces from `spaceTextNode` — and the query " ",
exactly one element has a non-empty field containing the query
case-insensitively, so the claim demands a tap at its center; the code instead
fails with the zero-match ActionableError, because matching additionally
requires fields to be non-whitespace (`field.trim() !== ""`). -/
theorem c1_counterexample :
    collectElements spaceTextNode = [spaceTextElement] ∧
    (List.filter (specMatchesB " ") [spaceTextElement]).length = 1 ∧
    mobileTapElement [spaceTextElement] " " = .noMatch [" "] := by
  decide

/-- C1 (amended): the find-and-tap decision is by the number of elements with
a NON-WHITESPACE (non-empty after trimming) text/label/name/value/identifier
field containing the query as a case-insensitive substring: zero matches fails
with the ActionableError listing each available element's first non-empty
display field; two or more matches fails with the ActionableError listing
every match and its bounding-box center, without tapping; exactly one match
taps at that element's bounding-box center
(rect.x + rect.width/2, rect.y + rect.height/2). -/
theorem c1_tap_element (elements : List ScreenElement) (query : String) :
    (elements.filter (claimMatchesB query) = [] →
      mobileTapElement elements query = .noMatch (availableDisplays elements)) ∧
    (∀ e, elements.filter (claimMatchesB query) = [e] →
      mobileTapElement elements query = .tapped (centerOf e).1 (centerOf e).2) ∧
    (2 ≤ (elements.filter (claimMatchesB query)).length →
      mobileTapElement elements query =
        .multiMatch (elements.filter (claimMatchesB query))
          ((elements.filter (claimMatchesB query)).map centerOf)) := by
  have hfe : elements.filter (matchesQueryB query) = elements.filter (claimMatchesB query) :=
    List.filter_congr (fun e _ => matchesQueryB_eq_claim query e)
  cases hm : elements.filter (claimMatchesB query) with
  | nil =>
    have key : mobileTapElement elements query = .noMatch (availableDisplays elements) := by
      unfold mobileTapElement
      rw [hfe, hm]
    refine ⟨fun _ => key, fun e he => absurd he (by simp), fun h2 => absurd h2 (by simp [hm])⟩
  | cons e1 rest =>
    cases rest with
    | nil =>
      have key : mobileTapElement elements query =
          .tapped (centerOf e1).1 (centerOf e1).2 := by
        unfold mobileTapElement
        rw [hfe, hm]
        rfl
      refine ⟨fun h0 => absurd h0 (by simp), fun e he => ?_, fun h2 => absurd h2 (by simp [hm])⟩
      obtain rfl : e1 = e := (List.cons.injEq _ _ _ _).mp he |>.1
      exact key
    | cons e2 es =>
      have key : mobileTapElement elements query =
          .multiMatch (e1 :: e2 :: es) ((e1 :: e2 :: es).map centerOf) := by
        unfold mobileTapElement
        rw [hfe, hm]
      exact ⟨fun h0 => absurd h0 (by simp), fun e he => absurd he (by simp),
        fun _ => key⟩

/-- The spec's multi-match example: an element labeled "Submit Form". -/
def submitFormElement : ScreenElement :=
  { type := "element", label := "Submit Form", rect := ⟨0, 0, 100, 50⟩ }

/-- The spec's multi-match example: an element identified "submit_button". -/
def submitButtonElement : ScreenElement :=
  { type := "element", label := "", identifier := some "submit_button", rect := ⟨0, 100, 100, 50⟩ }

theorem c1_tap_element_witness :
    mobileTapElement [submitFormElement, submitButtonElement] "submit" =
      .multiMatch [submitFormElement, submitButtonElement]
        ([submitFormElement, submitButtonElement].map centerOf) := by
  have hf : [submitFormElement, submitButtonElement].filter (claimMatchesB "submit") =
      [submitFormElement, submitButtonElement] := by decide
  have h := (c1_tap_element [submitFormElement, submitButtonElement] "submit").2.2 (by decide)
  rw [h, hf]

/-! ### C6: coordinate-anchored swipe -/

/-- C6 counterexample: an anchor below the screen bottom.
`swipeFromCoordinate(100, 5000, "up")` on an 800x1600 screen with no distance
yields y1 = 5000 - 480 = 4520, outside [0, 1600]: the end coordinate is NOT
clamped into [0, screenDimension] (only the travel-direction edge is clamped),
so the gesture targets an off-screen point, contradicting the claim. -/
theorem c6_counterexample :
    swipeFromCoordinate 800 1600 100 5000 "up" none = .ok (100, 5000, 100, 4520) ∧
    ¬((4520 : Int) ≤ 1600) := by
  decide

/-- C6 (amended): `swipeFromCoordinate(x, y, direction, distance?)` starts at
(x, y) and travels the given distance — or 30% of the relevant screen
dimension when none is given — with the end coordinate clamped at the screen
edge in the travel direction (at 0 for up/left, at the screen dimension for
down/right); for an anchor inside the screen and a nonnegative distance this
keeps the end point within [0, screenDimension].  In particular
swipeFromCoordinate(100, 100, "up") with no explicit distance on an 800x1600
screen clamps y1 to 0. -/
theorem c6_swipe_from_coordinate (w h : Nat) (x y : Int) (distance : Option Int)
    (hx0 : 0 ≤ x) (hxw : x ≤ (w : Int)) (hy0 : 0 ≤ y) (hyh : y ≤ (h : Int))
    (hdist : ∀ v, distance = some v → 0 ≤ v) :
    (swipeFromCoordinate w h x y "up" distance =
        .ok (x, y, x, max 0 (y - jsOrInt distance (3 * (h : Int) / 10))) ∧
      0 ≤ max 0 (y - jsOrInt distance (3 * (h : Int) / 10)) ∧
      max 0 (y - jsOrInt distance (3 * (h : Int) / 10)) ≤ (h : Int)) ∧
    (swipeFromCoordinate w h x y "down" distance =
        .ok (x, y, x, min (h : Int) (y + jsOrInt distance (3 * (h : Int) / 10))) ∧
      0 ≤ min (h : Int) (y + jsOrInt distance (3 * (h : Int) / 10)) ∧
      min (h : Int) (y + jsOrInt distance (3 * (h : Int) / 10)) ≤ (h : Int)) ∧
    (swipeFromCoordinate w h x y "left" distance =
        .ok (x, y, max 0 (x - jsOrInt distance (3 * (w : Int) / 10)), y) ∧
      0 ≤ max 0 (x - jsOrInt distance (3 * (w : Int) / 10)) ∧
      max 0 (x - jsOrInt distance (3 * (w : Int) / 10)) ≤ (w : Int)) ∧
    (swipeFromCoordinate w h x y "right" distance =
        .ok (x, y, min (w : Int) (x + jsOrInt distance (3 * (w : Int) / 10)), y) ∧
      0 ≤ min (w : Int) (x + jsOrInt distance (3 * (w : Int) / 10)) ∧
      min (w : Int) (x + jsOrInt distance (3 * (w : Int) / 10)) ≤ (w : Int)) ∧
    swipeFromCoordinate 800 1600 100 100 "up" none = .ok (100, 100, 100, 0) := by
  have hDy : 0 ≤ jsOrInt distance (3 * (h : Int) / 10) := by
    cases distance with
    | none =>
      simp only [jsOrInt]
      omega
    | some v =>
      by_cases hv : v = 0
      · simp only [jsOrInt, hv, if_true]
        omega
      · simp only [jsOrInt, hv, if_false]
        exact hdist v rfl
  have hDx : 0 ≤ jsOrInt distance (3 * (w : Int) / 10) := by
    cases distance with
    | none =>
      simp only [jsOrInt]
      omega
    | some v =>
      by_cases hv : v = 0
      · simp only [jsOrInt, hv, if_true]
        omega
      · simp only [jsOrInt, hv, if_false]
        exact hdist v rfl
  refine ⟨⟨rfl, by omega, by omega⟩, ⟨rfl, by omega, by omega⟩,
    ⟨rfl, by omega, by omega⟩, ⟨rfl, by omega, by omega⟩, by decide⟩

/-! ### C7/C8: log filter engine lemmas -/

theorem startsWithChars_nil_pat (l : List Char) : startsWithChars l [] = true := by
  cases l <;> rfl

theorem startsWithChars_append (a b : List Char) : startsWithChars (a ++ b) a = true := by
  induction a with
  | nil => exact startsWithChars_nil_pat b
  | cons c cs ih => simp [startsWithChars, ih]

theorem startsWithChars_trans {l a b : List Char} (h1 : startsWithChars l a = true)
    (h2 : startsWithChars a b = true) : startsWithChars l b = true := by
  induction b generalizing l a with
  | nil => exact startsWithChars_nil_pat l
  | cons x xs ih =>
    cases a with
    | nil => simp [startsWithChars] at h2
    | cons y ys =>
      cases l with
      | nil => simp [startsWithChars] at h1
      | cons z zs =>
        simp only [startsWithChars, Bool.and_eq_true, beq_iff_eq] at h1 h2 ⊢
        exact ⟨h1.1.trans h2.1, ih h1.2 h2.2⟩

theorem containsChars_of_startsWith {l pat : List Char} (h : startsWithChars l pat = true) :
    containsChars l pat = true := by
  cases l with
  | nil =>
    cases pat with
    | nil => rfl
    | cons p ps => simp [startsWithChars] at h
  | cons c cs => simp [containsChars, h]

theorem containsChars_nil (l : List Char) : containsChars l [] = true := by
  cases l with
  | nil => rfl
  | cons c cs => simp [containsChars, startsWithChars_nil_pat]

theorem mem_of_containsChars {l : List Char} {p : Char} {ps : List Char}
    (h : containsChars l (p :: ps) = true) : p ∈ l := by
  induction l with
  | nil => simp [containsChars] at h
  | cons c cs ih =>
    simp only [containsChars, Bool.or_eq_true] at h
    rcases h with h | h
    · simp only [startsWithChars, Bool.and_eq_true, beq_iff_eq] at h
      rw [← h.1]
      exact List.mem_cons_self c cs
    · exact List.mem_cons_of_mem c (ih h)

theorem all_ws_of_trimChars_nil {l : List Char} (h : trimChars l = []) :
    ∀ c ∈ l, isWsB c = true := by
  unfold trimChars at h
  rw [List.reverse_eq_nil_iff, List.dropWhile_eq_nil_iff] at h
  intro c hc
  rw [← List.takeWhile_append_dropWhile (p := isWsB) (l := l)] at hc
  rcases List.mem_append.mp hc with hc | hc
  · exact List.mem_takeWhile_imp hc
  · exact h c (List.mem_reverse.mpr hc)

theorem trimStr_ne_empty_of_mem {s : String} {c : Char} (hc : c ∈ s.data)
    (hw : isWsB c = false) : (trimStr s == "") = false := by
  by_contra hcon
  rw [Bool.not_eq_false, beq_iff_eq] at hcon
  have hnil : trimChars s.data = ([] : List Char) := congrArg String.data hcon
  exact absurd (all_ws_of_trimChars_nil hnil c hc) (by simp [hw])

/-- A line kept by the `package:mine` user-app filter contains a non-blank
character, so the blank-line pre-filter never excludes it. -/
theorem userApp_trim_ne (l : String) (h : userAppLineB l = true) :
    (trimStr l == "") = false := by
  unfold userAppLineB at h
  simp only [Bool.and_eq_true, Bool.or_eq_true] at h
  rcases h.2 with ((h4 | h4) | h4) | h4
  · exact trimStr_ne_empty_of_mem
      (mem_of_containsChars (show containsChars l.data ('c' :: "om.".data) = true from h4))
      (by decide)
  · exact trimStr_ne_empty_of_mem
      (mem_of_containsChars (show containsChars l.data ('i' :: "o.".data) = true from h4))
      (by decide)
  · exact trimStr_ne_empty_of_mem
      (mem_of_containsChars (show containsChars l.data ('n' :: "et.".data) = true from h4))
      (by decide)
  · exact trimStr_ne_empty_of_mem
      (mem_of_containsChars (show containsChars l.data ('a' :: "pp.".data) = true from h4))
      (by decide)

theorem removeFirst_of_startsWith (l pat : List Char) (h : startsWithChars l pat = true) :
    removeFirst l pat = l.drop pat.length := by
  cases l with
  | nil => simp [removeFirst]
  | cons c cs => simp [removeFirst, h]

theorem lowerIncludes_empty (l : String) : lowerIncludes l "" = true := by
  unfold lowerIncludes strIncludes strToLower
  exact containsChars_nil _

theorem c6_swipe_from_coordinate_witness :
    swipeFromCoordinate 800 1600 100 100 "up" none = .ok (100, 100, 100, 0) ∧
    max 0 ((100 : Int) - jsOrInt none (3 * (1600 : Int) / 10)) ≤ (1600 : Int) :=
  ⟨(c6_swipe_from_coordinate 800 1600 100 100 none (by decide) (by decide) (by decide)
      (by decide) (fun v hv => by simp at hv)).2.2.2.2,
    (c6_swipe_from_coordinate 800 1600 100 100 none (by decide) (by decide) (by decide)
      (by decide) (fun v hv => by simp at hv)).1.2.2⟩

/-! ### C7: the `package:mine` filter -/

/-- The claim's kept-line predicate for the filter `"package:mine t"`: no
system indicator, at least one user-package prefix, and the term `t` as a
case-insensitive substring. -/
def mineClaimKeepB (t : String) (l : String) : Bool :=
  !strIncludes l "com.android." && !strIncludes l "android." && !strIncludes l "system_" &&
    (strIncludes l "com." || strIncludes l "io." || strIncludes l "net." ||
      strIncludes l "app.") &&
    lowerIncludes l t

theorem mineClaimKeepB_eq (t l : String) :
    mineClaimKeepB t l = (userAppLineB l && lowerIncludes l t) := by
  simp [mineClaimKeepB, userAppLineB, Bool.and_assoc]

/-- C7: the Android log filter `"package:mine t"` (for a trimmed term `t`)
keeps exactly the lines that contain none of the system indicators
"com.android.", "android.", "system_", contain at least one of the
user-package prefixes "com.", "io.", "net.", "app.", and contain `t` as a
case-insensitive substring. -/
theorem c7_package_mine (t : String) (lines : List String) (ht : trimStr t = t) :
    getDeviceLogs (some ("package:mine " ++ t)) none lines =
      String.intercalate "\n" (lines.filter (mineClaimKeepB t)) := by
  have heff : effectiveFilterOf (some ("package:mine " ++ t)) none =
      some ("package:mine " ++ t) := by
    simp [effectiveFilterOf, jsTruthy]
  have hdata : ("package:mine " ++ t).data = "package:mine".data ++ (' ' :: t.data) := by
    have h1 : ("package:mine " ++ t).data = "package:mine ".data ++ t.data := rfl
    have h2 : ("package:mine " : String).data = "package:mine".data ++ [' '] := by decide
    rw [h1, h2, List.append_assoc]
    rfl
  have hsw : strStartsWith ("package:mine " ++ t) "package:mine" = true := by
    unfold strStartsWith
    rw [hdata]
    exact startsWithChars_append _ _
  have hne : (("package:mine " ++ t) == "") = false := by
    rw [beq_eq_false_iff_ne]
    intro hcon
    have h2 : "package:mine".data ++ (' ' :: t.data) = ([] : List Char) :=
      hdata ▸ congrArg String.data hcon
    simp at h2
  have hq : trimStr ⟨removeFirst ("package:mine " ++ t).data "package:mine".data⟩ = t := by
    rw [removeFirst_of_startsWith _ _ (hdata ▸ startsWithChars_append _ _), hdata,
      List.drop_left]
    show (⟨trimChars (' ' :: t.data)⟩ : String) = t
    rw [show trimChars (' ' :: t.data) = trimChars t.data from by
      simp [trimChars, List.dropWhile_cons, isWsB]]
    exact ht
  have h1 : jsTruthy (some ("package:mine " ++ t)) = true := by simp [jsTruthy, hne]
  have h2 : jsOrString (some ("package:mine " ++ t)) "" = "package:mine " ++ t := by
    simp [jsOrString, hne]
  have hparse : parseEffectiveFilter (some ("package:mine " ++ t)) =
      (none, if t == "" then none else some t) := by
    unfold parseEffectiveFilter
    rw [if_pos h1, h2]
    try dsimp only
    rw [if_pos hsw]
    try dsimp only
    rw [hq]
  have hmc : mineCheckOf (some ("package:mine " ++ t)) = true := by
    unfold mineCheckOf
    rw [h1, h2, hsw]
    rfl
  unfold getDeviceLogs
  rw [heff]
  try dsimp only
  rw [hparse, hmc]
  unfold postProcessLogs
  try dsimp only
  try rw [if_pos (rfl : true = true)]
  by_cases ht0 : (t == "") = true
  · rw [if_pos ht0]
    try dsimp only
    try rw [if_pos (rfl : true = true)]
    rw [beq_iff_eq] at ht0
    subst ht0
    rw [List.filter_filter]
    refine congrArg _ (List.filter_congr fun l _ => ?_)
    cases hu : userAppLineB l with
    | false => simp [hu, mineClaimKeepB_eq]
    | true => simp [hu, mineClaimKeepB_eq, userApp_trim_ne l hu, lowerIncludes_empty]
  · rw [if_neg ht0]
    try dsimp only
    try rw [if_pos (rfl : true = true)]
    rw [if_neg ht0]
    rw [List.filter_filter, List.filter_filter]
    refine congrArg _ (List.filter_congr fun l _ => ?_)
    cases hu : userAppLineB l with
    | false => simp [hu, mineClaimKeepB_eq]
    | true => simp [hu, mineClaimKeepB_eq, userApp_trim_ne l hu]

theorem c7_package_mine_witness :
    getDeviceLogs (some ("package:mine " ++ "error")) none
        ["com.android.system: ok", "com.example.app: error seen"] =
      String.intercalate "\n"
        (["com.android.system: ok", "com.example.app: error seen"].filter
          (mineClaimKeepB "error")) ∧
    String.intercalate "\n"
        (["com.android.system: ok", "com.example.app: error seen"].filter
          (mineClaimKeepB "error")) = "com.example.app: error seen" :=
  ⟨c7_package_mine "error" ["com.android.system: ok", "com.example.app: error seen"]
      (by decide),
    by decide⟩

/-! ### C8: folding the process parameter into the filter -/

/-- C8 counterexample: with process = "mine" and filter = "error", the folded
call and the direct call with filter "package:mine error" parse the same
effective filter, but the `package:mine` post-filter is gated on the ORIGINAL
filter option, so only the direct call applies the user-app heuristic: on the
line "somethingelse error" the two calls return different results, refuting
the claimed equivalence. -/
theorem c8_counterexample :
    getDeviceLogs (some "error") (some "mine") ["somethingelse error"] =
        "somethingelse error" ∧
    getDeviceLogs (some ("package:" ++ "mine" ++ " " ++ "error")) none
        ["somethingelse error"] = "" := by
  decide

/-- C8 (amended): the process parameter is folded into an equivalent
`package:` filter expression before parsing — `{process: p, filter: f}` is
equivalent to `{filter: "package:p f"}` for a nonempty bare `f`, and
`{process: p}` alone to `{filter: "package:p"}` — provided `p` is nonempty and
the folded expression does not start with "package:mine" (the `package:mine`
post-filter is gated on the original filter option, so a process identifier
beginning with "mine" breaks the equivalence). -/
theorem c8_process_folding (p f : String) (lines : List String)
    (hp : p ≠ "") (hf : f ≠ "") (hbare : strIncludes f "package:" = false)
    (hmine1 : strStartsWith ("package:" ++ p ++ " " ++ f) "package:mine" = false)
    (hmine2 : strStartsWith ("package:" ++ p) "package:mine" = false) :
    getDeviceLogs (some f) (some p) lines =
      getDeviceLogs (some ("package:" ++ p ++ " " ++ f)) none lines ∧
    getDeviceLogs none (some p) lines =
      getDeviceLogs (some ("package:" ++ p)) none lines := by
  have hpB : (p == "") = false := by simp [hp]
  have hfB : (f == "") = false := by simp [hf]
  have hfmine : strStartsWith f "package:mine" = false := by
    cases hsw : strStartsWith f "package:mine" with
    | false => rfl
    | true =>
      have hinc : strIncludes f "package:" = true :=
        containsChars_of_startsWith (startsWithChars_trans hsw (by decide))
      rw [hinc] at hbare
      cases hbare
  constructor
  · have heffL : effectiveFilterOf (some f) (some p) =
        some ("package:" ++ p ++ " " ++ f) := by
      simp [effectiveFilterOf, jsOrString, jsTruthy, hpB, hfB, hbare]
    have heffR : effectiveFilterOf (some ("package:" ++ p ++ " " ++ f)) none =
        some ("package:" ++ p ++ " " ++ f) := by
      simp [effectiveFilterOf, jsTruthy]
    have hmcL : mineCheckOf (some f) = false := by
      unfold mineCheckOf jsOrString
      simp [jsTruthy, hfB, hfmine]
    have hmcR : mineCheckOf (some ("package:" ++ p ++ " " ++ f)) = false := by
      unfold mineCheckOf jsOrString
      by_cases hc : (("package:" ++ p ++ " " ++ f) == "") = true
      · simp [jsTruthy, hc]
      · rw [Bool.not_eq_true] at hc
        simp [jsTruthy, hc, hmine1]
    unfold getDeviceLogs
    rw [heffL, heffR, hmcL, hmcR]
  · have heffL2 : effectiveFilterOf none (some p) = some ("package:" ++ p) := by
      simp [effectiveFilterOf, jsOrString, jsTruthy, hpB]
    have heffR2 : effectiveFilterOf (some ("package:" ++ p)) none =
        some ("package:" ++ p) := by
      simp [effectiveFilterOf, jsTruthy]
    have hmcR2 : mineCheckOf (some ("package:" ++ p)) = false := by
      unfold mineCheckOf jsOrString
      by_cases hc : (("package:" ++ p) == "") = true
      · simp [jsTruthy, hc]
      · rw [Bool.not_eq_true] at hc
        simp [jsTruthy, hc, hmine2]
    unfold getDeviceLogs
    rw [heffL2, heffR2, hmcR2]
    rfl

theorem c8_process_folding_witness :
    getDeviceLogs (some "error") (some "com.example.app") ["com.example.app: error seen"] =
      getDeviceLogs (some ("package:" ++ "com.example.app" ++ " " ++ "error")) none
        ["com.example.app: error seen"] ∧
    getDeviceLogs none (some "com.example.app") ["com.example.app: error seen"] =
      getDeviceLogs (some ("package:" ++ "com.example.app")) none
        ["com.example.app: error seen"] :=
  c8_process_folding "com.example.app" "error" ["com.example.app: error seen"]
    (by decide) (by decide) (by decide) (by decide) (by decide)

end MobileMcp
